import Mathlib

/-!
Verification development for the mini-passy request router.

The definitions below are a shallow embedding of the TypeScript sources of
the repository (`packages/gateway`, `packages/sdk`).  Pure computations are
translated to Lean functions; the effectful boundaries (HTTP dispatch of an
upstream request, probe responses, subprocess spawning, health polling, port
binding) are abstracted as explicit oracle functions passed to the embedded
code, so that the control flow of the source is reproduced exactly while the
network stays abstract.  JavaScript strings are modelled over their character
lists (for the ASCII configuration space handled by the gateway this agrees
with JS semantics); JS `Map` objects are modelled as association lists with
insertion-order `set` semantics.
-/

namespace MiniPassy

/-! ## Small JS-style string helpers (modelled over character lists) -/

/-- ASCII lowering of one character, as JS `toLowerCase` acts on ASCII. -/
def lowerChar (c : Char) : Char :=
  if 65 ≤ c.toNat ∧ c.toNat ≤ 90 then Char.ofNat (c.toNat + 32) else c

/-- Model of JS `String.prototype.toLowerCase` on the ASCII range. -/
def lowerStr (s : String) : String := ⟨s.data.map lowerChar⟩

/-- Model of JS `String.prototype.startsWith`. -/
def strStartsWith (s p : String) : Bool :=
  decide (s.data.take p.data.length = p.data)

/-- Model of JS `String.prototype.endsWith`. -/
def strEndsWith (s p : String) : Bool :=
  decide (s.data.drop (s.data.length - p.data.length) = p.data ∧
          p.data.length ≤ s.data.length)

/-- Drop the first `n` characters (JS `slice(n)`). -/
def strDrop (s : String) (n : Nat) : String := ⟨s.data.drop n⟩

/-- Drop the last `n` characters (JS `slice(0, -n)`). -/
def strDropRight (s : String) (n : Nat) : String :=
  ⟨s.data.take (s.data.length - n)⟩

/-- Character length of a string. -/
def strLen (s : String) : Nat := s.data.length

/-! ## JS `Map` modelled as an association list

`Map.get` returns the value of the first matching key; `Map.set` replaces an
existing binding in place and otherwise appends, preserving insertion order. -/

def mapGet {α : Type} (m : List (String × α)) (k : String) : Option α :=
  match m with
  | [] => none
  | e :: rest => if e.1 = k then some e.2 else mapGet rest k

def mapSet {α : Type} (m : List (String × α)) (k : String) (v : α) :
    List (String × α) :=
  match m with
  | [] => [(k, v)]
  | e :: rest => if e.1 = k then (k, v) :: rest else e :: mapSet rest k v

/-! ## Data model (`packages/gateway/src/types.ts`) -/

/-- A registered upstream provider (types.ts `Provider`). -/
structure Provider where
  name : String
  url : String
  key : String
  openai : Bool
  anthropic : Bool
  models : List String
deriving DecidableEq, Repr

/-- One routing target of an alias (types.ts `Alias.targets` element). -/
structure Target where
  provider : String
  model : String
deriving DecidableEq, Repr

/-- A public alias (types.ts `Alias`). -/
structure Alias where
  name : String
  targets : List Target
  fallbackOn : List String
deriving DecidableEq, Repr

/-! ## Proxy engine (`packages/gateway/dist/proxy.js`, `proxyWithFallback`)

The outbound HTTP call performed by `proxyRequest` is abstracted by an
oracle `u : Dispatch β → UpstreamResult` giving the upstream outcome of a
dispatched request; `β` is the type of the inbound request body, kept
abstract because the proxy only repackages it. -/

/-- Wire format chosen for an outbound request. -/
inductive Format where
  | openai
  | anthropic
deriving DecidableEq, Repr

/-- The outbound body built by `proxyWithFallback`: either the inbound body
spread with the target model (`{ ...body, model }`, OpenAI path) or the
Anthropic conversion (`{ model, messages, max_tokens || 4096, stream,
temperature }`). -/
inductive OutBody (β : Type) where
  | openaiPassthrough (orig : β) (model : String)
  | anthropicConverted (orig : β) (model : String)
deriving DecidableEq, Repr

/-- A dispatched upstream request: which provider was called, on which path,
in which format, with which outbound body.  Producing a `Dispatch` is the
embedding's witness that a network call to the provider occurs. -/
structure Dispatch (β : Type) where
  providerName : String
  path : String
  format : Format
  outBody : OutBody β
deriving DecidableEq, Repr

/-- Outcome of an outbound upstream call as observed by `proxyRequest`:
a response with an HTTP status, a connection error, or a socket timeout. -/
inductive UpstreamResult where
  | response (status : Nat)
  | connError
  | timeout
deriving DecidableEq, Repr

/-- Status relayed to the caller by `proxyRequest`: a response is relayed
with its own status (`upRes.statusCode || 200`), a connection error produces
a local 502 and a timeout a local 504. -/
def relayStatus (r : UpstreamResult) : Nat :=
  match r with
  | .response s => if s = 0 then 200 else s
  | .connError => 502
  | .timeout => 504

/-- Result of `proxyWithFallback`: either some target was dispatched and its
outcome relayed to the caller, or every target was exhausted and the 502
aggregate with the accumulated error details was sent. -/
inductive ProxyResult (β : Type) where
  | relayed (d : Dispatch β) (status : Nat)
  | allFailed (status : Nat) (details : List String)
deriving DecidableEq, Repr

/-- Format/path/body selection of the dist proxy variant: Anthropic if the
provider's `anthropic` flag is set, otherwise OpenAI format by default
(dist/proxy.js lines 76-98). -/
def dispatchFor {β : Type} (t : Target) (p : Provider) (body : β) : Dispatch β :=
  if p.anthropic then
    { providerName := p.name
      path := "/v1/messages"
      format := .anthropic
      outBody := .anthropicConverted body t.model }
  else
    { providerName := p.name
      path := "/v1/chat/completions"
      format := .openai
      outBody := .openaiPassthrough body t.model }

/-- The `tryNext` closure of dist/proxy.js `proxyWithFallback`: walk the
targets in declared order, record an error and continue for an unregistered
provider, and otherwise dispatch the target and relay the upstream outcome
(no inspection of the upstream status; the source comments: "For simplicity,
we don't do complex fallback detection here"). -/
def tryNext {β : Type} (u : Dispatch β → UpstreamResult)
    (providers : List (String × Provider)) (body : β) :
    List Target → List String → ProxyResult β
  | [], errors => .allFailed 502 errors
  | t :: rest, errors =>
    match mapGet providers t.provider with
    | none => tryNext u providers body rest
        (errors ++ [t.provider ++ ": not configured"])
    | some p =>
      let d := dispatchFor t p body
      .relayed d (relayStatus (u d))

/-- dist/proxy.js `proxyWithFallback`: start `tryNext` at the first target
with an empty error list. -/
def proxyWithFallback {β : Type} (u : Dispatch β → UpstreamResult)
    (a : Alias) (body : β) (providers : List (String × Provider)) :
    ProxyResult β :=
  tryNext u providers body a.targets []

/-- The `tryNext` closure of the model-checking proxy variant
(src/unnamed/part_017 lines 83-142): additionally skips a target whose
model is absent from the provider's discovered list, prefers the OpenAI
format, and skips a provider supporting neither format. -/
def tryNextChecked {β : Type} (u : Dispatch β → UpstreamResult)
    (providers : List (String × Provider)) (body : β) :
    List Target → List String → ProxyResult β
  | [], errors => .allFailed 502 errors
  | t :: rest, errors =>
    match mapGet providers t.provider with
    | none => tryNextChecked u providers body rest
        (errors ++ [t.provider ++ ": not configured"])
    | some p =>
      if t.model ∈ p.models then
        if p.openai then
          let d : Dispatch β :=
            { providerName := p.name
              path := "/v1/chat/completions"
              format := .openai
              outBody := .openaiPassthrough body t.model }
          .relayed d (relayStatus (u d))
        else if p.anthropic then
          let d : Dispatch β :=
            { providerName := p.name
              path := "/v1/messages"
              format := .anthropic
              outBody := .anthropicConverted body t.model }
          .relayed d (relayStatus (u d))
        else tryNextChecked u providers body rest
          (errors ++ [t.provider ++ ": no compatible format"])
      else tryNextChecked u providers body rest
        (errors ++ [t.provider ++ ": model " ++ t.model ++ " not available"])

/-- Model-checking proxy variant, entry point. -/
def proxyWithFallbackChecked {β : Type} (u : Dispatch β → UpstreamResult)
    (a : Alias) (body : β) (providers : List (String × Provider)) :
    ProxyResult β :=
  tryNextChecked u providers body a.targets []

/-- The error message recorded by the model-checking variant when it skips a
target whose provider answers neither format. -/
def skipMsg (t : Target) (p : Provider) : String :=
  if t.model ∈ p.models then t.provider ++ ": no compatible format"
  else t.provider ++ ": model " ++ t.model ++ " not available"

/-! ## Configuration loader (`packages/gateway/dist/env.js` / src/unnamed/part_015 `loadEnv`)

The process environment is modelled as a list of key/value entries
(`Object.entries(process.env)` in iteration order); a JS falsy check on an
environment value is emptiness of the string. -/

/-- Environment lookup (`process.env[k]`): value of the first entry named `k`. -/
def envGet (env : List (String × String)) (k : String) : Option String :=
  mapGet env k

/-- Match of the key against `^PROVIDER_(.+)_URL$` (greedy), returning the
captured provider id. -/
def parseProviderUrlKey (k : String) : Option String :=
  if strStartsWith k "PROVIDER_" ∧ strEndsWith k "_URL" ∧ 13 < strLen k then
    some (strDropRight (strDrop k 9) 4)
  else none

/-- Match of the key against `^ALIAS_(.+)$`, returning the captured name. -/
def parseAliasKey (k : String) : Option String :=
  if strStartsWith k "ALIAS_" ∧ 6 < strLen k then some (strDrop k 6) else none

/-- One iteration of the provider loop of `loadEnv`: on a `PROVIDER_<ID>_URL`
entry with a non-empty value and a non-empty `PROVIDER_<ID>_KEY`, register the
provider under the lowercased id with capability flags false and no models. -/
def providerStep (env : List (String × String))
    (m : List (String × Provider)) (e : String × String) :
    List (String × Provider) :=
  match parseProviderUrlKey e.1 with
  | none => m
  | some mid =>
    if e.2 = "" then m
    else
      match envGet env ("PROVIDER_" ++ mid ++ "_KEY") with
      | none => m
      | some apiKey =>
        if apiKey = "" then m
        else
          mapSet m (lowerStr mid)
            { name := lowerStr mid
              url := e.2
              key := apiKey
              openai := false
              anthropic := false
              models := [] }

/-- The provider map built by `loadEnv`. -/
def loadProviders (env : List (String × String)) : List (String × Provider) :=
  env.foldl (providerStep env) []

/-- One iteration of the alias loop of `loadEnv`: on an `ALIAS_<NAME>` entry
(not ending in `_FALLBACK`) with a non-empty value, parse `provider:model`
or bare `provider`, read the optional comma-separated
`ALIAS_<NAME>_FALLBACK` list, and register the alias under the lowercased
name with the primary target followed by the fallback targets (same model),
skipping a fallback equal to the primary provider. -/
def aliasStep (env : List (String × String))
    (m : List (String × Alias)) (e : String × String) : List (String × Alias) :=
  match parseAliasKey e.1 with
  | none => m
  | some mid =>
    if e.2 = "" then m
    else if strEndsWith e.1 "_FALLBACK" then m
    else
      let name := lowerStr mid
      let parts := e.2.splitOn ":"
      let pn : String := if 2 ≤ parts.length then parts.headD "" else e.2
      let mn : String := if 2 ≤ parts.length then (parts.get? 1).getD "" else name
      let fallbackProviders : List String :=
        match envGet env ("ALIAS_" ++ mid ++ "_FALLBACK") with
        | some s => if s = "" then [] else (s.splitOn ",").map (fun x => lowerStr x.trim)
        | none => []
      let tmodel := if mn = "" then name else mn
      let targets : List Target :=
        { provider := lowerStr pn, model := tmodel } ::
          (fallbackProviders.filter (fun fb => fb ≠ lowerStr pn)).map
            (fun fb => { provider := fb, model := tmodel })
      mapSet m name { name := name, targets := targets,
                      fallbackOn := ["5xx", "timeout", "rate_limit"] }

/-- The alias map built by `loadEnv`. -/
def loadAliases (env : List (String × String)) : List (String × Alias) :=
  env.foldl (aliasStep env) []

/-- In-memory configuration (types.ts `EnvConfig`). -/
structure EnvConfig where
  port : Nat
  providers : List (String × Provider)
  aliases : List (String × Alias)
deriving Repr

/-- `loadEnv`: parse the environment into the provider and alias maps
(`parseInt(process.env.PORT || "3333")` modelled as a decimal parse with
default 3333). -/
def loadEnv (env : List (String × String)) : EnvConfig :=
  { port := ((envGet env "PORT").bind String.toNat?).getD 3333
    providers := loadProviders env
    aliases := loadAliases env }

/-! ## HTTP dispatcher (`packages/gateway/dist/server.js`, `createRequestHandler`)

Body reading and JSON parsing are abstracted: a request body is either
unparseable JSON or a parsed object with an optional `model` field.  The
handler either answers locally (`respond`, carrying the HTTP status and the
error code tag of the source) or invokes `proxyWithFallback` on a resolved
alias (`proxy`); only the `proxy` action leads to an upstream network call. -/

/-- Parsed state of the inbound request body. -/
inductive ReqBody where
  | invalidJson
  | parsed (model : Option String)
deriving DecidableEq, Repr

/-- Action taken by the request handler. -/
inductive HandlerAction where
  | respond (status : Nat) (tag : String)
  | proxy (a : Alias)
deriving DecidableEq, Repr

/-- The shared body of the two chat endpoints: 400 on invalid JSON, 400 when
`body.model?.toLowerCase()` is falsy (absent or empty), 404 on an unknown
alias, otherwise hand over to `proxyWithFallback`. -/
def chatDispatch (env : EnvConfig) (body : ReqBody) : HandlerAction :=
  match body with
  | .invalidJson => .respond 400 "invalid_json"
  | .parsed none => .respond 400 "missing_model"
  | .parsed (some m) =>
    let aliasName := lowerStr m
    if aliasName = "" then .respond 400 "missing_model"
    else
      match mapGet env.aliases aliasName with
      | none => .respond 404 "unknown_model"
      | some a => .proxy a

/-- `createRequestHandler`'s routing: health and model-list endpoints answer
locally, the two chat endpoints run `chatDispatch`, anything else is 404. -/
def handleRequest (env : EnvConfig) (path method : String) (body : ReqBody) :
    HandlerAction :=
  if path = "/health" ∧ method = "GET" then .respond 200 "health"
  else if path = "/v1/models" ∧ method = "GET" then .respond 200 "models"
  else if path = "/v1/chat/completions" ∧ method = "POST" then
    chatDispatch env body
  else if path = "/v1/messages" ∧ method = "POST" then
    chatDispatch env body
  else .respond 404 "not_found"

/-! ## Capability discovery (`packages/gateway/src/discovery.ts`, `discoverProviders`)

Each `/v1/models` probe is abstracted as a `ProbeResult`: `.ok ids` when the
HTTP response is 2xx and its JSON parses (`data.data?.map(m => m.id) || []`),
`.failure` for a non-2xx response, a timeout, a connection error, or a JSON
parse error (all of which leave the provider unchanged). -/

inductive ProbeResult where
  | ok (models : List String)
  | failure
deriving DecidableEq, Repr

/-- Effect of the OpenAI-format (bearer token) probe on the provider: on
success set the `openai` flag and overwrite the model list with the returned
ids (discovery.ts lines 49-64). -/
def probeAApply (a : ProbeResult) (p : Provider) : Provider :=
  match a with
  | .ok ms => { p with openai := true, models := ms }
  | .failure => p

/-- JS `[...new Set(l)]`: deduplicate keeping first occurrences. -/
def jsSetDedupAux (seen : List String) : List String → List String
  | [] => []
  | x :: xs =>
    if x ∈ seen then jsSetDedupAux seen xs
    else x :: jsSetDedupAux (x :: seen) xs

def jsSetDedup (l : List String) : List String := jsSetDedupAux [] l

/-- Discovery of one provider (the loop body of `discoverProviders`): run the
OpenAI-format probe, then run the Anthropic-format (`x-api-key` +
`anthropic-version`) probe only when the OpenAI probe left the flag unset or
the model list empty (discovery.ts line 67, `!provider.openai ||
provider.models.length === 0`).  The second component records whether the
Anthropic probe was issued at all. -/
def discoverProvider (a b : ProbeResult) (p : Provider) : Provider × Bool :=
  let p1 := probeAApply a p
  if p1.openai = false ∨ p1.models.length = 0 then
    match b with
    | .ok ms =>
      ({ p1 with anthropic := true, models := jsSetDedup (p1.models ++ ms) }, true)
    | .failure => (p1, true)
  else (p1, false)

/-! ## Boot sequence (`packages/gateway/dist/server.js`, `startServer`)

`startServer` awaits `discoverProviders(env.providers)` — a sequential loop
over all registered providers — before creating the HTTP server and calling
`listen`; the boot is modelled as the ordered trace of those completions. -/

inductive BootEvent where
  | discovered (name : String)
  | listen (port : Nat)
deriving DecidableEq, Repr

/-- Completion events of the `discoverProviders` loop, in map order. -/
def discoveryTrace (ps : List (String × Provider)) : List BootEvent :=
  ps.map (fun e => BootEvent.discovered e.1)

/-- Ordered boot trace of `startServer port`: every provider's discovery
completes, then the server starts listening (and only then are requests —
the `/health` endpoint included — dispatched to `createRequestHandler`). -/
def startServerTrace (ps : List (String × Provider)) (port : Nat) :
    List BootEvent :=
  discoveryTrace ps ++ [BootEvent.listen port]

/-! ## Credential rotation (`packages/gateway/src/router/openai.ts`, `pickOpenAIKey`)

The module-level cursor `openaiKeyIndex` is threaded explicitly: one call
returns the picked key and the updated cursor. -/

/-- `pickOpenAIKey`: `undefined` on an empty list, otherwise
`apiKeys[openaiKeyIndex % apiKeys.length]`, and the cursor advances to
`(openaiKeyIndex + 1) % apiKeys.length`. -/
def pickOpenAIKey (apiKeys : List String) (openaiKeyIndex : Nat) :
    Option String × Nat :=
  if apiKeys.length = 0 then (none, openaiKeyIndex)
  else (apiKeys.get? (openaiKeyIndex % apiKeys.length),
        (openaiKeyIndex + 1) % apiKeys.length)

/-- Cursor value after `n` consecutive picks starting from the initial 0. -/
def cursorAfterPicks (apiKeys : List String) : Nat → Nat
  | 0 => 0
  | n + 1 => (pickOpenAIKey apiKeys (cursorAfterPicks apiKeys n)).2

/-- The key selected by the `n`-th consecutive dispatch (0-based). -/
def nthPick (apiKeys : List String) (n : Nat) : Option String :=
  (pickOpenAIKey apiKeys (cursorAfterPicks apiKeys n)).1

/-! ## Port negotiation (`packages/gateway/src/index.ts`, `main`)

The bind attempt of `startServer(currentPort)` is abstracted as an oracle
from the tried port to its outcome: the server comes up reporting its
actually-bound port, the bind fails with `EADDRINUSE`, or it fails with some
other error code. -/

inductive BindOutcome where
  | ok (boundPort : Nat)
  | addrInUse
  | fail (code : String)
deriving DecidableEq, Repr

/-- Outcome of `main`: the gateway started reporting the bound port, an
unexpected bind error was rethrown, or all 10 attempts hit `EADDRINUSE` and
the process exits with failure ("all ports occupied"). -/
inductive MainResult where
  | started (port : Nat)
  | thrown (code : String)
  | exitFailure
deriving DecidableEq, Repr

/-- The retry loop of `main`: up to `fuel` attempts, trying `port`,
`port+1`, … — advancing only on `EADDRINUSE` and rethrowing any other
error immediately. -/
def mainLoop (env : Nat → BindOutcome) : Nat → Nat → MainResult
  | _, 0 => .exitFailure
  | port, n + 1 =>
    match env port with
    | .ok p => .started p
    | .addrInUse => mainLoop env (port + 1) n
    | .fail c => .thrown c

/-- `main`: the loop runs for at most 10 attempts. -/
def main (env : Nat → BindOutcome) (port : Nat) : MainResult :=
  mainLoop env port 10

/-! ## Process lifecycle manager (`packages/sdk/src/gateway-manager.ts`)

The module globals `gatewayProcess` / `gatewayPort` / `readyPromise` are an
explicit state record; process handles are numbered by spawn order
(`spawnCount`), so a freshly spawned subprocess always carries a handle
different from every previously spawned one.  The effectful boundaries are
an oracle `spawnOutcome` (outcome of the `spawnGateway` promise for the
n-th spawn: the resolved actual port, or `none` when the subprocess errors
or exits before resolving) and an oracle `healthyPort` (whether
`waitForHealth` eventually sees `/health` answer `status: "ok"` on a port). -/

structure LifecycleEnv where
  spawnOutcome : Nat → Option Nat
  healthyPort : Nat → Bool

/-- The manager's mutable module state. -/
structure MState where
  gatewayProcess : Option Nat
  gatewayPort : Option Nat
  readyPromise : Option (Except String Unit)
  spawnCount : Nat
deriving Repr

/-- `cleanup()`: if a subprocess handle exists, kill it and null both the
handle and the cached port; otherwise do nothing. -/
def cleanup (s : MState) : MState :=
  if s.gatewayProcess.isSome then
    { s with gatewayProcess := none, gatewayPort := none }
  else s

/-- `stop()`: run `cleanup()` and reset the cached readiness promise. -/
def stop (s : MState) : MState :=
  { cleanup s with readyPromise := none }

/-- `spawnGateway`: spawn the subprocess (recording the fresh handle and
advancing the spawn counter) and return the resolved actual port, or the
rejection when the subprocess errors or exits first.  Note the handle is
recorded even when the promise rejects, as in the source. -/
def spawnGatewayM (env : LifecycleEnv) (s : MState) :
    MState × Except String Nat :=
  let n := s.spawnCount
  let s' := { s with gatewayProcess := some n, spawnCount := n + 1 }
  match env.spawnOutcome n with
  | some actual => (s', .ok actual)
  | none => (s', .error "Gateway exited")

/-- `ensureGateway`: reuse a cached healthy gateway; otherwise (cleaning up a
dead one first) spawn anew, poll health on the reported port, cache the port
on success and reject with "Gateway failed to start" otherwise. -/
def ensureGateway (env : LifecycleEnv) (s : MState) :
    MState × Except String Unit :=
  let step (s1 : MState) : MState × Except String Unit :=
    match spawnGatewayM env s1 with
    | (s2, .error e) => (s2, .error e)
    | (s2, .ok port) =>
      if env.healthyPort port then
        ({ s2 with gatewayPort := some port }, .ok ())
      else (s2, .error "Gateway failed to start")
  match s.gatewayPort with
  | some p => if env.healthyPort p then (s, .ok ()) else step (cleanup s)
  | none => step s

/-- `ready()`: return the cached promise when present, otherwise run
`ensureGateway` and cache its settled result. -/
def ready (env : LifecycleEnv) (s : MState) : MState × Except String Unit :=
  match s.readyPromise with
  | some r => (s, r)
  | none =>
    let res := ensureGateway env s
    ({ res.1 with readyPromise := some res.2 }, res.2)

/-- The `url` getter: throws when no port is cached, otherwise the base URL
of the running gateway. -/
def url (s : MState) : Except String String :=
  match s.gatewayPort with
  | none => .error "Gateway not ready. Call ready first."
  | some p => .ok ("http://127.0.0.1:" ++ toString p)

/-! ## Concrete fixtures used by counterexamples and witnesses -/

/-- A provider answering the OpenAI format, as after a successful format-A
discovery probe. -/
def p1ex : Provider :=
  { name := "p1", url := "https://p1.example", key := "key1",
    openai := true, anthropic := false, models := ["m1"] }

/-- A second registered provider, the declared fallback of `aliasEx`. -/
def p2ex : Provider :=
  { name := "p2", url := "https://p2.example", key := "key2",
    openai := true, anthropic := false, models := ["m1"] }

/-- An alias with two targets whose fallback policy includes the 5xx class
(exactly as `loadEnv` builds it). -/
def aliasEx : Alias :=
  { name := "a"
    targets := [{ provider := "p1", model := "m1" },
                { provider := "p2", model := "m1" }]
    fallbackOn := ["5xx", "timeout", "rate_limit"] }

/-- Upstream behaviour where provider `p1` answers 500 and any other
provider answers 200. -/
def upstream500 : Dispatch Unit → UpstreamResult := fun d =>
  if d.providerName = "p1" then .response 500 else .response 200

/-- A registered provider that satisfied neither discovery probe. -/
def pNoCaps : Provider :=
  { name := "bad", url := "https://bad.example", key := "key",
    openai := false, anthropic := false, models := [] }

/-- An alias whose single target points at `pNoCaps`. -/
def aliasBad : Alias :=
  { name := "b", targets := [{ provider := "bad", model := "m" }],
    fallbackOn := ["5xx", "timeout", "rate_limit"] }

/-- A provider as registered by `loadEnv`, before discovery. -/
def pFresh : Provider :=
  { name := "p", url := "https://p.example", key := "key",
    openai := false, anthropic := false, models := [] }

/-! ## Lemmas about the proxy engine -/

/-- If `tryNext` exhausts its targets, the status is 502 and exactly one
error was appended per target walked. -/
theorem tryNext_allFailed {β : Type} (u : Dispatch β → UpstreamResult)
    (ps : List (String × Provider)) (body : β) (ts : List Target) :
    ∀ (errs ds : List String) (st : Nat),
      tryNext u ps body ts errs = .allFailed st ds →
      st = 502 ∧ ds.length = errs.length + ts.length := by
  induction ts with
  | nil =>
    intro errs ds st h
    simp only [tryNext] at h
    injection h with h1 h2
    exact ⟨h1.symm, by simp [← h2]⟩
  | cons t rest ih =>
    intro errs ds st h
    simp only [tryNext] at h
    cases hm : mapGet ps t.provider with
    | none =>
      rw [hm] at h
      have := ih _ _ _ h
      refine ⟨this.1, ?_⟩
      rw [this.2]
      simp [List.length_append]
      omega
    | some p =>
      rw [hm] at h
      exact (ProxyResult.noConfusion h)

/-- C5 (confirmed): if `proxyWithFallback` exhausts every target of the
alias without relaying any upstream response, it answers 502 and its error
detail list holds exactly one reason per attempted target, so its length
equals the number of targets attempted. -/
theorem allTargets_exhausted_502 {β : Type} (u : Dispatch β → UpstreamResult)
    (a : Alias) (body : β) (ps : List (String × Provider))
    (st : Nat) (ds : List String)
    (h : proxyWithFallback u a body ps = .allFailed st ds) :
    st = 502 ∧ ds.length = a.targets.length := by
  have := tryNext_allFailed u ps body a.targets [] ds st h
  simpa using this

/-- Witness for `allTargets_exhausted_502` on a concrete exhausted alias. -/
theorem allTargets_exhausted_502_witness :
    (proxyWithFallback (fun _ => UpstreamResult.response 200) aliasBad () []
        = ProxyResult.allFailed 502 ["bad: not configured"]) ∧
    ((502 : Nat) = 502 ∧ (["bad: not configured"] : List String).length
        = aliasBad.targets.length) :=
  ⟨rfl, allTargets_exhausted_502 (fun _ => UpstreamResult.response 200)
    aliasBad () [] 502 ["bad: not configured"] rfl⟩

/-- C1 (counterexample): with alias `aliasEx` (`fallbackOn` includes 5xx,
targets `[p1, p2]`, both providers registered) and `p1` answering 500, the
gateway relays the 500 from the single dispatch to `p1` — the next target
`p2` is never attempted, contradicting the claimed 5xx fallback. -/
theorem qualifying500_not_retried_cex :
    proxyWithFallback upstream500 aliasEx () [("p1", p1ex), ("p2", p2ex)]
      = ProxyResult.relayed
          (dispatchFor { provider := "p1", model := "m1" } p1ex ()) 500 ∧
    ∀ st, proxyWithFallback upstream500 aliasEx () [("p1", p1ex), ("p2", p2ex)]
      ≠ ProxyResult.relayed
          (dispatchFor { provider := "p2", model := "m1" } p2ex ()) st := by
  have heval : proxyWithFallback upstream500 aliasEx ()
      [("p1", p1ex), ("p2", p2ex)]
      = ProxyResult.relayed
          (dispatchFor { provider := "p1", model := "m1" } p1ex ()) 500 := by
    decide
  refine ⟨heval, ?_⟩
  intro st h
  rw [heval] at h
  injection h with hd hs
  exact absurd hd (by decide)

/-- `tryNext` walks past any prefix of targets whose providers are
unregistered (one recorded error each, no dispatch) and, at the first target
whose provider is registered, dispatches it and relays the upstream outcome
whatever its status — the remaining targets are never examined. -/
theorem tryNext_skip_unregistered_then_relay {β : Type}
    (u : Dispatch β → UpstreamResult) (ps : List (String × Provider))
    (body : β) (t : Target) (rest : List Target) (p : Provider)
    (hp : mapGet ps t.provider = some p) :
    ∀ (pre : List Target) (errs : List String),
      (∀ tp ∈ pre, mapGet ps tp.provider = none) →
      tryNext u ps body (pre ++ t :: rest) errs
        = ProxyResult.relayed (dispatchFor t p body)
            (relayStatus (u (dispatchFor t p body))) := by
  intro pre
  induction pre with
  | nil =>
    intro errs _
    simp only [List.nil_append, tryNext, hp]
  | cons tp pre' ih =>
    intro errs hpre
    have hnone : mapGet ps tp.provider = none :=
      hpre tp (List.mem_cons_self tp pre')
    rw [List.cons_append]
    rw [show tryNext u ps body (tp :: (pre' ++ t :: rest)) errs =
          (match mapGet ps tp.provider with
           | none => tryNext u ps body (pre' ++ t :: rest)
               (errs ++ [tp.provider ++ ": not configured"])
           | some p0 =>
             let d := dispatchFor tp p0 body
             ProxyResult.relayed d (relayStatus (u d))) from rfl]
    rw [hnone]
    exact ih _ (fun tq hq => hpre tq (List.mem_cons_of_mem tp hq))

/-- C1 (amended, proved): during fallback iteration, targets whose providers
are unregistered are skipped pre-dispatch (one recorded error each, no
network call); at the first target whose provider is registered — wherever
it sits in the declared order — `proxyWithFallback` dispatches once and
relays the upstream outcome to the caller whatever its status, qualifying
failure statuses (5xx/timeout/429) included, and never attempts any later
target; the alias's `fallbackOn` policy is not consulted after dispatch. -/
theorem firstRegistered_always_relayed {β : Type}
    (u : Dispatch β → UpstreamResult) (ps : List (String × Provider))
    (a : Alias) (body : β) (pre : List Target) (t : Target)
    (rest : List Target) (p : Provider)
    (hts : a.targets = pre ++ t :: rest)
    (hpre : ∀ tp ∈ pre, mapGet ps tp.provider = none)
    (hp : mapGet ps t.provider = some p) :
    proxyWithFallback u a body ps
      = ProxyResult.relayed (dispatchFor t p body)
          (relayStatus (u (dispatchFor t p body))) := by
  unfold proxyWithFallback
  rw [hts]
  exact tryNext_skip_unregistered_then_relay u ps body t rest p hp pre [] hpre

/-- Alias fixture whose first target points at an unregistered provider and
whose second target is the first one with a registered provider. -/
def aliasSkipEx : Alias :=
  { name := "c"
    targets := [{ provider := "missing", model := "m1" },
                { provider := "p1", model := "m1" },
                { provider := "p2", model := "m1" }]
    fallbackOn := ["5xx", "timeout", "rate_limit"] }

/-- Witness for `firstRegistered_always_relayed` on targets
`[unregistered, registered, registered]` with the registered target
answering 500: the unregistered head is skipped, the 500 is relayed, the
third target is never attempted. -/
theorem firstRegistered_always_relayed_witness :
    (aliasSkipEx.targets = [{ provider := "missing", model := "m1" }] ++
        { provider := "p1", model := "m1" } ::
        [{ provider := "p2", model := "m1" }]) ∧
    (∀ tp ∈ [({ provider := "missing", model := "m1" } : Target)],
      mapGet [("p1", p1ex), ("p2", p2ex)] tp.provider = none) ∧
    (mapGet [("p1", p1ex), ("p2", p2ex)] "p1" = some p1ex) ∧
    proxyWithFallback upstream500 aliasSkipEx () [("p1", p1ex), ("p2", p2ex)]
      = ProxyResult.relayed
          (dispatchFor { provider := "p1", model := "m1" } p1ex ())
          (relayStatus (upstream500
            (dispatchFor { provider := "p1", model := "m1" } p1ex ()))) :=
  ⟨rfl, by decide, by decide,
    firstRegistered_always_relayed upstream500 [("p1", p1ex), ("p2", p2ex)]
      aliasSkipEx () [{ provider := "missing", model := "m1" }]
      { provider := "p1", model := "m1" }
      [{ provider := "p2", model := "m1" }] p1ex rfl (by decide) (by decide)⟩

/-- C4 (counterexample): in the dist proxy variant, a registered provider
with both capability flags false is still dispatched — the OpenAI format is
assumed by default, so a network call to it does occur instead of the target
being excluded. -/
theorem noCapability_dispatched_cex :
    proxyWithFallback (fun _ => UpstreamResult.response 200) aliasBad ()
        [("bad", pNoCaps)]
      = ProxyResult.relayed
          { providerName := "bad", path := "/v1/chat/completions",
            format := Format.openai, outBody := OutBody.openaiPassthrough () "m" }
          200 ∧
    ∀ st ds, proxyWithFallback (fun _ => UpstreamResult.response 200) aliasBad ()
        [("bad", pNoCaps)] ≠ ProxyResult.allFailed st ds := by
  have heval : proxyWithFallback (fun _ => UpstreamResult.response 200) aliasBad ()
      [("bad", pNoCaps)]
      = ProxyResult.relayed
          { providerName := "bad", path := "/v1/chat/completions",
            format := Format.openai, outBody := OutBody.openaiPassthrough () "m" }
          200 := by decide
  refine ⟨heval, ?_⟩
  intro st ds h
  rw [heval] at h
  exact ProxyResult.noConfusion h

/-- C4 (amended, proved): in the model-checking proxy variant, a target
whose registered provider has both capability flags false is excluded from
routing — no dispatch is produced for it, one error message is recorded, and
iteration moves to the next target. -/
theorem noCapability_excluded_checked {β : Type}
    (u : Dispatch β → UpstreamResult) (ps : List (String × Provider))
    (body : β) (t : Target) (rest : List Target) (errs : List String)
    (p : Provider) (hp : mapGet ps t.provider = some p)
    (ho : p.openai = false) (ha : p.anthropic = false) :
    tryNextChecked u ps body (t :: rest) errs
      = tryNextChecked u ps body rest (errs ++ [skipMsg t p]) := by
  rw [show tryNextChecked u ps body (t :: rest) errs =
        (match mapGet ps t.provider with
         | none => tryNextChecked u ps body rest
             (errs ++ [t.provider ++ ": not configured"])
         | some p =>
           if t.model ∈ p.models then
             if p.openai then
               let d : Dispatch β :=
                 { providerName := p.name
                   path := "/v1/chat/completions"
                   format := .openai
                   outBody := .openaiPassthrough body t.model }
               .relayed d (relayStatus (u d))
             else if p.anthropic then
               let d : Dispatch β :=
                 { providerName := p.name
                   path := "/v1/messages"
                   format := .anthropic
                   outBody := .anthropicConverted body t.model }
               .relayed d (relayStatus (u d))
             else tryNextChecked u ps body rest
               (errs ++ [t.provider ++ ": no compatible format"])
           else tryNextChecked u ps body rest
             (errs ++ [t.provider ++ ": model " ++ t.model ++ " not available"]))
      from rfl]
  rw [hp]
  by_cases hm : t.model ∈ p.models
  · simp only [if_pos hm, ho, ha, Bool.false_eq_true, if_false, skipMsg, if_pos hm]
  · simp only [if_neg hm, skipMsg]

/-- Witness for `noCapability_excluded_checked` at a concrete skipped target. -/
theorem noCapability_excluded_checked_witness :
    (mapGet [("bad", pNoCaps)] "bad" = some pNoCaps) ∧
    (pNoCaps.openai = false) ∧ (pNoCaps.anthropic = false) ∧
    tryNextChecked (fun _ => UpstreamResult.response 200) [("bad", pNoCaps)] ()
        [{ provider := "bad", model := "m" }] []
      = tryNextChecked (fun _ => UpstreamResult.response 200) [("bad", pNoCaps)] ()
        [] ([] ++ [skipMsg { provider := "bad", model := "m" } pNoCaps]) :=
  ⟨by decide, rfl, rfl,
    noCapability_excluded_checked (fun _ => UpstreamResult.response 200)
      [("bad", pNoCaps)] () { provider := "bad", model := "m" } [] [] pNoCaps
      (by decide) rfl rfl⟩

/-! ## Credential rotation lemmas -/

/-- The round-robin cursor after `n` picks over a non-empty key list is
`n % keys.length`. -/
theorem cursorAfterPicks_eq (keys : List String) (hk : keys ≠ []) (n : Nat) :
    cursorAfterPicks keys n = n % keys.length := by
  have hl : keys.length ≠ 0 := fun h => hk (List.eq_nil_of_length_eq_zero h)
  induction n with
  | zero => simp [cursorAfterPicks]
  | succ n ih =>
    simp only [cursorAfterPicks, ih, pickOpenAIKey, if_neg hl]
    conv_rhs => rw [Nat.add_mod]
    rw [Nat.add_mod (n % keys.length) 1]
    rw [Nat.mod_mod_of_dvd n dvd_rfl]

/-- C7 (confirmed): starting from the initial cursor, consecutive calls to
`pickOpenAIKey` over a non-empty credential list select the keys in the
round-robin order `keys[0], keys[1], …, keys[len-1], keys[0], …`: the `n`-th
dispatch picks `keys[n % len]`, so no credential is duplicated or skipped
between consecutive picks. -/
theorem roundRobin_picks (keys : List String) (hk : keys ≠ []) (n : Nat) :
    nthPick keys n = keys.get? (n % keys.length) := by
  have hl : 0 < keys.length := List.length_pos.mpr hk
  simp only [nthPick, pickOpenAIKey, cursorAfterPicks_eq keys hk n,
    if_neg (Nat.pos_iff_ne_zero.mp hl)]
  rw [Nat.mod_mod_of_dvd n dvd_rfl]

/-- Witness for `roundRobin_picks`: over `[k1,k2,k3]` the fourth consecutive
dispatch wraps around to `k1`. -/
theorem roundRobin_picks_witness :
    ((["k1", "k2", "k3"] : List String) ≠ []) ∧
    nthPick ["k1", "k2", "k3"] 3 = ["k1", "k2", "k3"].get? (3 % 3) :=
  ⟨by decide, roundRobin_picks ["k1", "k2", "k3"] (by decide) 3⟩

/-! ## Discovery lemmas -/

/-- Membership in the JS-set deduplication with a `seen` accumulator. -/
theorem mem_jsSetDedupAux (l : List String) :
    ∀ (seen : List String) (x : String),
      x ∈ jsSetDedupAux seen l ↔ x ∈ l ∧ x ∉ seen := by
  induction l with
  | nil => intro seen x; simp [jsSetDedupAux]
  | cons y ys ih =>
    intro seen x
    by_cases hy : y ∈ seen
    · rw [jsSetDedupAux, if_pos hy, ih]
      constructor
      · rintro ⟨h1, h2⟩; exact ⟨List.mem_cons_of_mem y h1, h2⟩
      · rintro ⟨h1, h2⟩
        rcases List.mem_cons.mp h1 with h1 | h1
        · exact absurd (h1 ▸ hy) h2
        · exact ⟨h1, h2⟩
    · rw [jsSetDedupAux, if_neg hy]
      constructor
      · intro h
        rcases List.mem_cons.mp h with h | h
        · exact ⟨h ▸ List.mem_cons_self y ys, h ▸ hy⟩
        · rw [ih] at h
          refine ⟨List.mem_cons_of_mem y h.1, fun hx => h.2 ?_⟩
          exact List.mem_cons_of_mem y hx
      · rintro ⟨h1, h2⟩
        rcases List.mem_cons.mp h1 with h1 | h1
        · exact h1 ▸ List.mem_cons_self y _
        · by_cases hxy : x = y
          · exact hxy ▸ List.mem_cons_self y _
          · refine List.mem_cons_of_mem y ?_
            rw [ih]
            exact ⟨h1, fun hx => by
              rcases List.mem_cons.mp hx with hx | hx
              · exact hxy hx
              · exact h2 hx⟩

/-- The JS-set deduplication never produces duplicates. -/
theorem nodup_jsSetDedupAux (l : List String) :
    ∀ seen : List String, (jsSetDedupAux seen l).Nodup := by
  induction l with
  | nil => intro seen; simp [jsSetDedupAux]
  | cons y ys ih =>
    intro seen
    by_cases hy : y ∈ seen
    · rw [jsSetDedupAux, if_pos hy]; exact ih _
    · rw [jsSetDedupAux, if_neg hy]
      refine List.nodup_cons.mpr ⟨?_, ih _⟩
      intro hmem
      rw [mem_jsSetDedupAux] at hmem
      exact hmem.2 (List.mem_cons_self y seen)

/-- Membership in `jsSetDedup`. -/
theorem mem_jsSetDedup (l : List String) (x : String) :
    x ∈ jsSetDedup l ↔ x ∈ l := by
  rw [jsSetDedup, mem_jsSetDedupAux]
  simp

/-- C2 (counterexample): for a freshly registered provider whose format-A
probe succeeds with the non-empty model list `["m1"]`, the format-B probe is
not performed at all (second component `false`) even though it would have
returned `["m2"]` — contradicting the claim that both probes are issued
independently and merged. -/
theorem discovery_skips_probeB_cex :
    discoverProvider (.ok ["m1"]) (.ok ["m2"]) pFresh
      = ({ pFresh with openai := true, models := ["m1"] }, false) := by
  decide

/-- C2 (amended, proved): the format-B probe is issued if and only if the
format-A probe left the `openai` flag unset or the model list empty; when it
is issued and succeeds, the `anthropic` flag is set and the returned ids are
merged into the model list with JS-set deduplication (first occurrences kept,
no duplicates, containing exactly the ids of both probes). -/
theorem discovery_probeB_conditional (a b : ProbeResult) (p : Provider) :
    ((discoverProvider a b p).2 = true ↔
      ((probeAApply a p).openai = false ∨ (probeAApply a p).models.length = 0)) ∧
    (∀ ms, b = .ok ms →
      ((probeAApply a p).openai = false ∨ (probeAApply a p).models.length = 0) →
      (discoverProvider a b p).1.anthropic = true ∧
      (discoverProvider a b p).1.models
        = jsSetDedup ((probeAApply a p).models ++ ms) ∧
      (discoverProvider a b p).1.models.Nodup ∧
      (∀ x, x ∈ (discoverProvider a b p).1.models ↔
        x ∈ (probeAApply a p).models ∨ x ∈ ms)) := by
  constructor
  · by_cases h : (probeAApply a p).openai = false ∨ (probeAApply a p).models.length = 0
    · simp only [discoverProvider]
      rw [if_pos h]
      cases b
      · exact iff_of_true rfl h
      · exact iff_of_true rfl h
    · simp only [discoverProvider]
      rw [if_neg h]
      exact iff_of_false (by simp) h
  · intro ms hb h
    subst hb
    simp only [discoverProvider]
    rw [if_pos h]
    refine ⟨rfl, rfl, nodup_jsSetDedupAux _ _, ?_⟩
    intro x
    rw [mem_jsSetDedup, List.mem_append]

/-! ## Port negotiation lemmas -/

/-- Characterization of a successful run of the bind-retry loop with `f`
attempts left: the gateway starts on the reported port `q` exactly when some
attempt within the bound binds successfully and every earlier attempt hit
`EADDRINUSE`. -/
theorem mainLoop_started_iff (env : Nat → BindOutcome) :
    ∀ (f p q : Nat),
      mainLoop env p f = .started q ↔
        ∃ i, i < f ∧ env (p + i) = .ok q ∧
          ∀ j, j < i → env (p + j) = .addrInUse := by
  intro f
  induction f with
  | zero =>
    intro p q
    simp [mainLoop]
  | succ f ih =>
    intro p q
    constructor
    · intro h
      rw [show mainLoop env p (f + 1) =
            (match env p with
             | .ok r => MainResult.started r
             | .addrInUse => mainLoop env (p + 1) f
             | .fail c => MainResult.thrown c) from rfl] at h
      cases henv : env p with
      | ok r =>
        rw [henv] at h
        injection h with hr
        exact ⟨0, Nat.succ_pos f, by simpa [hr] using henv,
          fun j hj => absurd hj (Nat.not_lt_zero j)⟩
      | addrInUse =>
        rw [henv] at h
        obtain ⟨i, hi, hok, hprev⟩ := (ih (p + 1) q).mp h
        refine ⟨i + 1, by omega, by rw [show p + (i + 1) = p + 1 + i by omega]; exact hok, ?_⟩
        intro j hj
        cases j with
        | zero => simpa using henv
        | succ j' =>
          rw [show p + (j' + 1) = p + 1 + j' by omega]
          exact hprev j' (by omega)
      | fail c =>
        rw [henv] at h
        exact (MainResult.noConfusion h)
    · rintro ⟨i, hi, hok, hprev⟩
      rw [show mainLoop env p (f + 1) =
            (match env p with
             | .ok r => MainResult.started r
             | .addrInUse => mainLoop env (p + 1) f
             | .fail c => MainResult.thrown c) from rfl]
      cases i with
      | zero =>
        simp only [Nat.add_zero] at hok
        rw [hok]
      | succ i' =>
        have h0 : env p = .addrInUse := by simpa using hprev 0 (Nat.succ_pos i')
        rw [h0]
        refine (ih (p + 1) q).mpr ⟨i', by omega, ?_, ?_⟩
        · rw [show p + 1 + i' = p + (i' + 1) by omega]; exact hok
        · intro j hj
          rw [show p + 1 + j = p + (j + 1) by omega]
          exact hprev (j + 1) (by omega)

/-- Characterization of a rethrown bind error: the loop throws `c` exactly
when some attempt within the bound fails with a non-`EADDRINUSE` code and
every earlier attempt hit `EADDRINUSE` — i.e. any other bind fault
propagates immediately. -/
theorem mainLoop_thrown_iff (env : Nat → BindOutcome) :
    ∀ (f p : Nat) (c : String),
      mainLoop env p f = .thrown c ↔
        ∃ i, i < f ∧ env (p + i) = .fail c ∧
          ∀ j, j < i → env (p + j) = .addrInUse := by
  intro f
  induction f with
  | zero =>
    intro p c
    simp [mainLoop]
  | succ f ih =>
    intro p c
    constructor
    · intro h
      rw [show mainLoop env p (f + 1) =
            (match env p with
             | .ok r => MainResult.started r
             | .addrInUse => mainLoop env (p + 1) f
             | .fail c0 => MainResult.thrown c0) from rfl] at h
      cases henv : env p with
      | ok r =>
        rw [henv] at h
        exact (MainResult.noConfusion h)
      | addrInUse =>
        rw [henv] at h
        obtain ⟨i, hi, hfailed, hprev⟩ := (ih (p + 1) c).mp h
        refine ⟨i + 1, by omega,
          by rw [show p + (i + 1) = p + 1 + i by omega]; exact hfailed, ?_⟩
        intro j hj
        cases j with
        | zero => simpa using henv
        | succ j' =>
          rw [show p + (j' + 1) = p + 1 + j' by omega]
          exact hprev j' (by omega)
      | fail c0 =>
        rw [henv] at h
        injection h with hc
        exact ⟨0, Nat.succ_pos f, by simpa [hc] using henv,
          fun j hj => absurd hj (Nat.not_lt_zero j)⟩
    · rintro ⟨i, hi, hfailed, hprev⟩
      rw [show mainLoop env p (f + 1) =
            (match env p with
             | .ok r => MainResult.started r
             | .addrInUse => mainLoop env (p + 1) f
             | .fail c0 => MainResult.thrown c0) from rfl]
      cases i with
      | zero =>
        simp only [Nat.add_zero] at hfailed
        rw [hfailed]
      | succ i' =>
        have h0 : env p = .addrInUse := by simpa using hprev 0 (Nat.succ_pos i')
        rw [h0]
        refine (ih (p + 1) c).mpr ⟨i', by omega, ?_, ?_⟩
        · rw [show p + 1 + i' = p + (i' + 1) by omega]; exact hfailed
        · intro j hj
          rw [show p + 1 + j = p + (j + 1) by omega]
          exact hprev (j + 1) (by omega)

/-- The bind environment of the spec's scenario: ports 3333–3335 occupied,
everything else (3336 included) free. -/
def scenarioEnv : Nat → BindOutcome := fun p =>
  if 3333 ≤ p ∧ p ≤ 3335 then .addrInUse else .ok p

/-- C8 (confirmed): the gateway's `main` retries the next sequential port on
`EADDRINUSE` for at most 10 attempts and starts on the first successfully
bound port, reporting that actual port; any other bind fault within the
retry window propagates immediately as a thrown error; and concretely, with
3333–3335 occupied and 3336 free, a start requested on 3333 binds and
reports 3336. -/
theorem portRetry_spec :
    (∀ (env : Nat → BindOutcome) (p q : Nat),
        main env p = .started q ↔
          ∃ i, i < 10 ∧ env (p + i) = .ok q ∧
            ∀ j, j < i → env (p + j) = .addrInUse) ∧
    (∀ (env : Nat → BindOutcome) (p : Nat) (c : String),
        main env p = .thrown c ↔
          ∃ i, i < 10 ∧ env (p + i) = .fail c ∧
            ∀ j, j < i → env (p + j) = .addrInUse) ∧
    main scenarioEnv 3333 = .started 3336 :=
  ⟨fun env p q => mainLoop_started_iff env 10 p q,
   fun env p c => mainLoop_thrown_iff env 10 p c,
   by decide⟩

/-! ## Boot barrier lemmas -/

/-- C3 (confirmed): in the boot trace of `startServer`, the discovery of any
registered provider completes strictly before the unique `listen` event —
the server accepts no traffic (the `/health` endpoint included) until
capability discovery has run to completion for every configured provider. -/
theorem discovery_before_listen (ps : List (String × Provider)) (port : Nat)
    (n : String) (hn : n ∈ ps.map Prod.fst) :
    ∃ i j, i < j ∧
      (startServerTrace ps port).get? i = some (BootEvent.discovered n) ∧
      (startServerTrace ps port).get? j = some (BootEvent.listen port) ∧
      ∀ k q, (startServerTrace ps port).get? k = some (BootEvent.listen q) →
        k = j := by
  have hmem : BootEvent.discovered n ∈ discoveryTrace ps := by
    rw [discoveryTrace]
    obtain ⟨e, he, hfst⟩ := List.mem_map.mp hn
    exact List.mem_map.mpr ⟨e, he, by rw [hfst]⟩
  obtain ⟨i, hi⟩ := List.mem_iff_get?.mp hmem
  have hilen : i < (discoveryTrace ps).length := by
    by_contra hge
    rw [List.get?_eq_none.mpr (Nat.le_of_not_lt hge)] at hi
    exact Option.noConfusion hi
  refine ⟨i, (discoveryTrace ps).length, hilen, ?_, ?_, ?_⟩
  · rw [startServerTrace, List.get?_append hilen]
    exact hi
  · rw [startServerTrace, List.get?_concat_length]
  · intro k q hk
    rcases Nat.lt_or_ge k (discoveryTrace ps).length with hklt | hkge
    · exfalso
      rw [startServerTrace, List.get?_append hklt] at hk
      rw [discoveryTrace] at hk
      rw [List.get?_map] at hk
      cases hpe : (ps.get? k) with
      | none => rw [hpe] at hk; exact Option.noConfusion hk
      | some e =>
        rw [hpe] at hk
        injection hk with hk
        exact BootEvent.noConfusion hk
    · rw [startServerTrace, List.get?_append_right hkge] at hk
      have : k - (discoveryTrace ps).length = 0 := by
        by_contra hne
        rw [List.get?_eq_none.mpr ?_] at hk
        · exact Option.noConfusion hk
        · simp only [List.length_cons, List.length_nil]
          omega
      omega

/-- Witness for `discovery_before_listen` on a one-provider configuration. -/
theorem discovery_before_listen_witness :
    ("p" ∈ ([("p", pFresh)].map Prod.fst)) ∧
    ∃ i j, i < j ∧
      (startServerTrace [("p", pFresh)] 3333).get? i
        = some (BootEvent.discovered "p") ∧
      (startServerTrace [("p", pFresh)] 3333).get? j
        = some (BootEvent.listen 3333) ∧
      ∀ k q, (startServerTrace [("p", pFresh)] 3333).get? k
        = some (BootEvent.listen q) → k = j :=
  ⟨by decide, discovery_before_listen [("p", pFresh)] 3333 "p" (by decide)⟩

/-! ## Dispatcher lemmas -/

/-- C6 (confirmed): a POST to either chat endpoint whose model name does not
resolve to a configured alias is answered locally with a 400 or 404 status,
and the handler never reaches `proxyWithFallback`, so no upstream network
call occurs. -/
theorem unknownAlias_no_upstream (env : EnvConfig) (path m : String)
    (hp : path = "/v1/chat/completions" ∨ path = "/v1/messages")
    (hunknown : mapGet env.aliases (lowerStr m) = none) :
    ∃ st tag, handleRequest env path "POST" (.parsed (some m)) = .respond st tag ∧
      (st = 400 ∨ st = 404) ∧
      ∀ a, handleRequest env path "POST" (.parsed (some m)) ≠ .proxy a := by
  have hchat : handleRequest env path "POST" (.parsed (some m))
      = chatDispatch env (.parsed (some m)) := by
    rcases hp with h | h <;> subst h <;> rfl
  by_cases he : lowerStr m = ""
  · refine ⟨400, "missing_model", ?_, Or.inl rfl, ?_⟩
    · rw [hchat]
      simp only [chatDispatch]
      rw [if_pos he]
    · intro a hcontra
      rw [hchat] at hcontra
      simp only [chatDispatch] at hcontra
      rw [if_pos he] at hcontra
      exact HandlerAction.noConfusion hcontra
  · refine ⟨404, "unknown_model", ?_, Or.inr rfl, ?_⟩
    · rw [hchat]
      simp only [chatDispatch]
      rw [if_neg he, hunknown]
    · intro a hcontra
      rw [hchat] at hcontra
      simp only [chatDispatch] at hcontra
      rw [if_neg he, hunknown] at hcontra
      exact HandlerAction.noConfusion hcontra

/-- Witness for `unknownAlias_no_upstream` on an empty alias table. -/
theorem unknownAlias_no_upstream_witness :
    (("/v1/chat/completions" = "/v1/chat/completions" ∨
        "/v1/chat/completions" = "/v1/messages") ∧
      mapGet (EnvConfig.mk 3333 [] []).aliases (lowerStr "nope") = none) ∧
    ∃ st tag,
      handleRequest (EnvConfig.mk 3333 [] []) "/v1/chat/completions" "POST"
          (.parsed (some "nope")) = .respond st tag ∧
      (st = 400 ∨ st = 404) ∧
      ∀ a, handleRequest (EnvConfig.mk 3333 [] []) "/v1/chat/completions" "POST"
          (.parsed (some "nope")) ≠ .proxy a :=
  ⟨⟨Or.inl rfl, rfl⟩,
    unknownAlias_no_upstream (EnvConfig.mk 3333 [] []) "/v1/chat/completions"
      "nope" (Or.inl rfl) rfl⟩

/-! ## Lifecycle manager lemmas -/

/-- C9 (confirmed): after `stop()` the subprocess handle, the cached port
and the cached readiness promise are all reset; a subsequent `ready()`
spawns a brand-new subprocess (a handle distinct from the stopped one, no
dead handle reused), resolves successfully exactly when the spawn resolves
and the new port's health endpoint reports healthy, and in that case the
cached port is the freshly negotiated one and `url` returns the matching
reachable base URL (no stale port reused). -/
theorem stop_then_ready (env : LifecycleEnv) (s : MState) (pid : Nat)
    (hproc : s.gatewayProcess = some pid)
    (hfresh : pid < s.spawnCount) :
    ((stop s).gatewayProcess = none ∧ (stop s).gatewayPort = none ∧
      (stop s).readyPromise = none) ∧
    ((ready env (stop s)).1.gatewayProcess = some s.spawnCount ∧
      s.spawnCount ≠ pid) ∧
    ((ready env (stop s)).2 = Except.ok () ↔
      ∃ q, env.spawnOutcome s.spawnCount = some q ∧ env.healthyPort q = true) ∧
    (∀ q, env.spawnOutcome s.spawnCount = some q → env.healthyPort q = true →
      (ready env (stop s)).1.gatewayPort = some q ∧
      url (ready env (stop s)).1
        = Except.ok ("http://127.0.0.1:" ++ toString q)) := by
  have hps : s.gatewayProcess.isSome = true := by rw [hproc]; rfl
  have hstop : stop s =
      { gatewayProcess := none, gatewayPort := none,
        readyPromise := none, spawnCount := s.spawnCount } := by
    unfold stop cleanup
    rw [if_pos hps]
  rw [hstop]
  refine ⟨⟨rfl, rfl, rfl⟩, ?_⟩
  cases hso : env.spawnOutcome s.spawnCount with
  | none =>
    have hready : ready env
        { gatewayProcess := none, gatewayPort := none,
          readyPromise := none, spawnCount := s.spawnCount }
        = ({ gatewayProcess := some s.spawnCount, gatewayPort := none,
             readyPromise := some (Except.error "Gateway exited"),
             spawnCount := s.spawnCount + 1 },
           Except.error "Gateway exited") := by
      simp [ready, ensureGateway, spawnGatewayM, hso]
    rw [hready]
    refine ⟨⟨rfl, by omega⟩, ?_, ?_⟩
    · constructor
      · intro h; exact Except.noConfusion h
      · rintro ⟨q, hq, _⟩
        exact Option.noConfusion hq
    · intro q hq
      exact absurd hq (by simp)
  | some q0 =>
    cases hh : env.healthyPort q0 with
    | false =>
      have hready : ready env
          { gatewayProcess := none, gatewayPort := none,
            readyPromise := none, spawnCount := s.spawnCount }
          = ({ gatewayProcess := some s.spawnCount, gatewayPort := none,
               readyPromise := some (Except.error "Gateway failed to start"),
               spawnCount := s.spawnCount + 1 },
             Except.error "Gateway failed to start") := by
        simp [ready, ensureGateway, spawnGatewayM, hso, hh]
      rw [hready]
      refine ⟨⟨rfl, by omega⟩, ?_, ?_⟩
      · constructor
        · intro h; exact Except.noConfusion h
        · rintro ⟨q, hq, hhq⟩
          injection hq with hq
          rw [← hq] at hhq
          rw [hh] at hhq
          exact Bool.noConfusion hhq
      · intro q hq hhq
        injection hq with hq
        rw [← hq] at hhq
        rw [hh] at hhq
        exact absurd hhq (by simp)
    | true =>
      have hready : ready env
          { gatewayProcess := none, gatewayPort := none,
            readyPromise := none, spawnCount := s.spawnCount }
          = ({ gatewayProcess := some s.spawnCount, gatewayPort := some q0,
               readyPromise := some (Except.ok ()),
               spawnCount := s.spawnCount + 1 },
             Except.ok ()) := by
        simp [ready, ensureGateway, spawnGatewayM, hso, hh]
      rw [hready]
      refine ⟨⟨rfl, by omega⟩, ?_, ?_⟩
      · exact iff_of_true rfl ⟨q0, rfl, hh⟩
      · intro q hq hhq
        injection hq with hq
        subst hq
        exact ⟨rfl, rfl⟩

/-- Witness for `stop_then_ready` at a concrete stopped-then-restarted
manager state. -/
theorem stop_then_ready_witness :
    ((MState.mk (some 0) (some 3333) (some (Except.ok ())) 1).gatewayProcess
        = some 0 ∧ 0 < 1) ∧
    (((stop (MState.mk (some 0) (some 3333) (some (Except.ok ())) 1)).gatewayProcess = none ∧
      (stop (MState.mk (some 0) (some 3333) (some (Except.ok ())) 1)).gatewayPort = none ∧
      (stop (MState.mk (some 0) (some 3333) (some (Except.ok ())) 1)).readyPromise = none) ∧
    ((ready (LifecycleEnv.mk (fun _ => some 4444) (fun _ => true))
        (stop (MState.mk (some 0) (some 3333) (some (Except.ok ())) 1))).1.gatewayProcess
        = some (MState.mk (some 0) (some 3333) (some (Except.ok ())) 1).spawnCount ∧
      (MState.mk (some 0) (some 3333) (some (Except.ok ())) 1).spawnCount ≠ 0) ∧
    ((ready (LifecycleEnv.mk (fun _ => some 4444) (fun _ => true))
        (stop (MState.mk (some 0) (some 3333) (some (Except.ok ())) 1))).2 = Except.ok () ↔
      ∃ q, (LifecycleEnv.mk (fun _ => some 4444) (fun _ => true)).spawnOutcome
          (MState.mk (some 0) (some 3333) (some (Except.ok ())) 1).spawnCount = some q ∧
        (LifecycleEnv.mk (fun _ => some 4444) (fun _ => true)).healthyPort q = true) ∧
    (∀ q, (LifecycleEnv.mk (fun _ => some 4444) (fun _ => true)).spawnOutcome
        (MState.mk (some 0) (some 3333) (some (Except.ok ())) 1).spawnCount = some q →
      (LifecycleEnv.mk (fun _ => some 4444) (fun _ => true)).healthyPort q = true →
      (ready (LifecycleEnv.mk (fun _ => some 4444) (fun _ => true))
        (stop (MState.mk (some 0) (some 3333) (some (Except.ok ())) 1))).1.gatewayPort = some q ∧
      url (ready (LifecycleEnv.mk (fun _ => some 4444) (fun _ => true))
        (stop (MState.mk (some 0) (some 3333) (some (Except.ok ())) 1))).1
        = Except.ok ("http://127.0.0.1:" ++ toString q))) :=
  ⟨⟨rfl, by decide⟩,
    stop_then_ready (LifecycleEnv.mk (fun _ => some 4444) (fun _ => true))
      (MState.mk (some 0) (some 3333) (some (Except.ok ())) 1) 0 rfl (by decide)⟩

/-! ## Configuration loader lemmas -/

/-- Setting a key makes it present with the given value. -/
theorem mapGet_mapSet_self {α : Type} (m : List (String × α)) (k : String)
    (v : α) : mapGet (mapSet m k v) k = some v := by
  induction m with
  | nil => simp [mapSet, mapGet]
  | cons e rest ih =>
    by_cases he : e.1 = k
    · rw [mapSet, if_pos he, mapGet, if_pos rfl]
    · rw [mapSet, if_neg he, mapGet, if_neg he]
      exact ih

/-- `mapSet` never removes a present key. -/
theorem mapGet_mapSet_isSome {α : Type} (m : List (String × α))
    (k k' : String) (v : α) (h : (mapGet m k).isSome) :
    (mapGet (mapSet m k' v) k).isSome := by
  induction m with
  | nil => rw [mapGet] at h; exact absurd h (by simp)
  | cons e rest ih =>
    by_cases he : e.1 = k'
    · rw [mapSet, if_pos he]
      by_cases hk : k' = k
      · rw [mapGet, if_pos hk]; rfl
      · rw [mapGet, if_neg hk]
        rw [mapGet] at h
        rw [if_neg (fun hek => hk (he ▸ hek))] at h
        exact h
    · rw [mapSet, if_neg he]
      by_cases hek : e.1 = k
      · rw [mapGet, if_pos hek]; rfl
      · rw [mapGet, if_neg hek]
        rw [mapGet, if_neg hek] at h
        exact ih h

/-- A key present in any map stays present across one alias-loop step. -/
theorem aliasStep_preserves (env : List (String × String))
    (m : List (String × Alias)) (e : String × String) (k : String)
    (h : (mapGet m k).isSome) :
    (mapGet (aliasStep env m e) k).isSome := by
  unfold aliasStep
  split
  · exact h
  · split
    · exact h
    · split
      · exact h
      · exact mapGet_mapSet_isSome m _ _ _ h

/-- A key present in the accumulator stays present across the alias fold. -/
theorem foldl_aliasStep_preserves (env : List (String × String))
    (l : List (String × String)) :
    ∀ (m : List (String × Alias)) (k : String),
      (mapGet m k).isSome →
      (mapGet (l.foldl (aliasStep env) m) k).isSome := by
  induction l with
  | nil => intro m k h; exact h
  | cons e rest ih =>
    intro m k h
    exact ih _ _ (aliasStep_preserves env m e k h)

/-- Keys inserted by `mapSet` are the set key or keys already present. -/
theorem mem_keys_mapSet {α : Type} (m : List (String × α)) (k' : String)
    (v : α) (k : String) (h : k ∈ (mapSet m k' v).map Prod.fst) :
    k = k' ∨ k ∈ m.map Prod.fst := by
  induction m with
  | nil =>
    rw [mapSet] at h
    simp at h
    exact Or.inl h
  | cons e rest ih =>
    by_cases he : e.1 = k'
    · rw [mapSet, if_pos he] at h
      simp only [List.map_cons, List.mem_cons] at h
      rcases h with h | h
      · exact Or.inl h
      · exact Or.inr (by simp [h])
    · rw [mapSet, if_neg he] at h
      simp only [List.map_cons, List.mem_cons] at h
      rcases h with h | h
      · exact Or.inr (by simp [h])
      · rcases ih h with h | h
        · exact Or.inl h
        · exact Or.inr (List.mem_cons_of_mem _ h)

/-- Every key the alias loop inserts is the image of some string under
`lowerStr`. -/
theorem aliasStep_keys_lower (env : List (String × String))
    (m : List (String × Alias)) (e : String × String) (k : String)
    (h : k ∈ (aliasStep env m e).map Prod.fst) :
    k ∈ m.map Prod.fst ∨ ∃ x, k = lowerStr x := by
  unfold aliasStep at h
  split at h
  · exact Or.inl h
  · rename_i mid _
    split at h
    · exact Or.inl h
    · split at h
      · exact Or.inl h
      · rcases mem_keys_mapSet _ _ _ _ h with h | h
        · exact Or.inr ⟨mid, h⟩
        · exact Or.inl h

/-- Every key the provider loop inserts is the image of some string under
`lowerStr`. -/
theorem providerStep_keys_lower (env : List (String × String))
    (m : List (String × Provider)) (e : String × String) (k : String)
    (h : k ∈ (providerStep env m e).map Prod.fst) :
    k ∈ m.map Prod.fst ∨ ∃ x, k = lowerStr x := by
  unfold providerStep at h
  split at h
  · exact Or.inl h
  · rename_i mid _
    split at h
    · exact Or.inl h
    · split at h
      · exact Or.inl h
      · split at h
        · exact Or.inl h
        · rcases mem_keys_mapSet _ _ _ _ h with h | h
          · exact Or.inr ⟨mid, h⟩
          · exact Or.inl h

/-- Folded version of `aliasStep_keys_lower`. -/
theorem foldl_aliasStep_keys_lower (env : List (String × String))
    (l : List (String × String)) :
    ∀ (m : List (String × Alias)) (k : String),
      k ∈ (l.foldl (aliasStep env) m).map Prod.fst →
      k ∈ m.map Prod.fst ∨ ∃ x, k = lowerStr x := by
  induction l with
  | nil => intro m k h; exact Or.inl h
  | cons e rest ih =>
    intro m k h
    rcases ih _ _ h with h | h
    · exact aliasStep_keys_lower env m e k h
    · exact Or.inr h

/-- Folded version of `providerStep_keys_lower`. -/
theorem foldl_providerStep_keys_lower (env : List (String × String))
    (l : List (String × String)) :
    ∀ (m : List (String × Provider)) (k : String),
      k ∈ (l.foldl (providerStep env) m).map Prod.fst →
      k ∈ m.map Prod.fst ∨ ∃ x, k = lowerStr x := by
  induction l with
  | nil => intro m k h; exact Or.inl h
  | cons e rest ih =>
    intro m k h
    rcases ih _ _ h with h | h
    · exact providerStep_keys_lower env m e k h
    · exact Or.inr h

/-- A nonempty string stays nonempty under `lowerStr`. -/
theorem lowerStr_ne_empty (s : String) (h : s ≠ "") : lowerStr s ≠ "" := by
  intro hc
  apply h
  have hdata : s.data.map lowerChar = [] := congrArg String.data hc
  have hsd : s.data = [] := List.map_eq_nil.mp hdata
  exact String.ext (hsd.trans rfl)

/-- The key `ALIAS_<N>` parses back to `N` for nonempty `N`. -/
theorem parseAliasKey_append (N : String) (hN : N ≠ "") :
    parseAliasKey ("ALIAS_" ++ N) = some N := by
  have hdata : ("ALIAS_" ++ N).data = "ALIAS_".data ++ N.data :=
    String.data_append _ _
  have hNdata : N.data ≠ [] := by
    intro hc
    exact hN (String.ext (hc.trans rfl))
  have hstarts : strStartsWith ("ALIAS_" ++ N) "ALIAS_" = true := by
    rw [strStartsWith, decide_eq_true_iff, hdata]
    rw [show ("ALIAS_" : String).data.length =
          ("ALIAS_" : String).data.length from rfl]
    exact List.take_left _ _
  have hlen : 6 < strLen ("ALIAS_" ++ N) := by
    rw [strLen, hdata, List.length_append]
    have : 0 < N.data.length := List.length_pos.mpr hNdata
    simp only [show ("ALIAS_" : String).data.length = 6 from rfl]
    omega
  have hdrop : strDrop ("ALIAS_" ++ N) 6 = N := by
    rw [strDrop, hdata]
    rw [show (6 : Nat) = ("ALIAS_" : String).data.length from rfl,
      List.drop_left]
  rw [parseAliasKey, if_pos ⟨hstarts, hlen⟩, hdrop]

/-- Processing the entry `("ALIAS_" ++ N, v)` registers an alias under
`lowerStr N`. -/
theorem aliasStep_sets (env : List (String × String))
    (m : List (String × Alias)) (N v : String)
    (hv : v ≠ "") (hN : N ≠ "")
    (hfb : strEndsWith ("ALIAS_" ++ N) "_FALLBACK" = false) :
    (mapGet (aliasStep env m ("ALIAS_" ++ N, v)) (lowerStr N)).isSome := by
  unfold aliasStep
  rw [parseAliasKey_append N hN]
  simp only
  rw [if_neg hv, if_neg (by rw [hfb]; exact Bool.false_ne_true)]
  rw [mapGet_mapSet_self]
  rfl

/-- If the environment contains a valid `ALIAS_<N>` entry, the alias fold
registers a binding under `lowerStr N`. -/
theorem foldl_aliasStep_sets (env : List (String × String))
    (l : List (String × String)) (N v : String)
    (hmem : ("ALIAS_" ++ N, v) ∈ l) (hv : v ≠ "") (hN : N ≠ "")
    (hfb : strEndsWith ("ALIAS_" ++ N) "_FALLBACK" = false) :
    ∀ m : List (String × Alias),
      (mapGet (l.foldl (aliasStep env) m) (lowerStr N)).isSome := by
  induction l with
  | nil => exact absurd hmem (List.not_mem_nil _)
  | cons e rest ih =>
    intro m
    rcases List.mem_cons.mp hmem with he | he
    · rw [List.foldl_cons, ← he]
      exact foldl_aliasStep_preserves env rest _ _
        (aliasStep_sets env m N v hv hN hfb)
    · exact ih he _

/-- C10 (confirmed): `loadEnv` stores every provider id and alias name as a
`lowerStr` image, and the dispatcher lowercases the inbound model before the
alias lookup, so alias resolution is case-insensitive: any request model
that lowercases like a configured (mixed-case) `ALIAS_<N>` entry resolves to
an alias on both chat endpoints and is handed to the proxy engine. -/
theorem caseInsensitive_alias_resolution (env : List (String × String))
    (N v s : String)
    (hmem : ("ALIAS_" ++ N, v) ∈ env) (hv : v ≠ "") (hN : N ≠ "")
    (hfb : strEndsWith ("ALIAS_" ++ N) "_FALLBACK" = false)
    (hs : lowerStr s = lowerStr N) :
    (∀ k ∈ (loadEnv env).aliases.map Prod.fst, ∃ x, k = lowerStr x) ∧
    (∀ k ∈ (loadEnv env).providers.map Prod.fst, ∃ x, k = lowerStr x) ∧
    (∃ a, handleRequest (loadEnv env) "/v1/chat/completions" "POST"
        (.parsed (some s)) = .proxy a) ∧
    (∃ a, handleRequest (loadEnv env) "/v1/messages" "POST"
        (.parsed (some s)) = .proxy a) := by
  have hkeysA : ∀ k ∈ (loadEnv env).aliases.map Prod.fst, ∃ x, k = lowerStr x := by
    intro k hk
    rcases foldl_aliasStep_keys_lower env env [] k hk with h | h
    · exact absurd h (by simp)
    · exact h
  have hkeysP : ∀ k ∈ (loadEnv env).providers.map Prod.fst, ∃ x, k = lowerStr x := by
    intro k hk
    rcases foldl_providerStep_keys_lower env env [] k hk with h | h
    · exact absurd h (by simp)
    · exact h
  have hsome : (mapGet (loadEnv env).aliases (lowerStr N)).isSome :=
    foldl_aliasStep_sets env env N v hmem hv hN hfb []
  obtain ⟨a, ha⟩ := Option.isSome_iff_exists.mp hsome
  have hne : lowerStr s ≠ "" := by
    rw [hs]
    exact lowerStr_ne_empty N hN
  have hdisp : chatDispatch (loadEnv env) (.parsed (some s)) = .proxy a := by
    simp only [chatDispatch]
    rw [if_neg hne, hs, ha]
  refine ⟨hkeysA, hkeysP, ⟨a, ?_⟩, ⟨a, ?_⟩⟩
  · rw [show handleRequest (loadEnv env) "/v1/chat/completions" "POST"
        (.parsed (some s)) = chatDispatch (loadEnv env) (.parsed (some s))
      from rfl]
    exact hdisp
  · rw [show handleRequest (loadEnv env) "/v1/messages" "POST"
        (.parsed (some s)) = chatDispatch (loadEnv env) (.parsed (some s))
      from rfl]
    exact hdisp

/-- Witness for `caseInsensitive_alias_resolution`: a mixed-case `ALIAS_GPT4`
configuration entry is matched by the mixed-case request model `GpT4`. -/
theorem caseInsensitive_alias_resolution_witness :
    ((("ALIAS_" ++ "GPT4", "openai:gpt-4o") ∈
        [(("ALIAS_" ++ "GPT4" : String), ("openai:gpt-4o" : String))]) ∧
      ("openai:gpt-4o" : String) ≠ "" ∧ ("GPT4" : String) ≠ "" ∧
      strEndsWith ("ALIAS_" ++ "GPT4") "_FALLBACK" = false ∧
      lowerStr "GpT4" = lowerStr "GPT4") ∧
    ((∀ k ∈ (loadEnv [(("ALIAS_" ++ "GPT4" : String), ("openai:gpt-4o" : String))]).aliases.map
        Prod.fst, ∃ x, k = lowerStr x) ∧
      (∀ k ∈ (loadEnv [(("ALIAS_" ++ "GPT4" : String), ("openai:gpt-4o" : String))]).providers.map
        Prod.fst, ∃ x, k = lowerStr x) ∧
      (∃ a, handleRequest (loadEnv [(("ALIAS_" ++ "GPT4" : String), ("openai:gpt-4o" : String))])
          "/v1/chat/completions" "POST" (.parsed (some "GpT4")) = .proxy a) ∧
      (∃ a, handleRequest (loadEnv [(("ALIAS_" ++ "GPT4" : String), ("openai:gpt-4o" : String))])
          "/v1/messages" "POST" (.parsed (some "GpT4")) = .proxy a)) :=
  ⟨⟨by decide, by decide, by decide, by decide, by decide⟩,
    caseInsensitive_alias_resolution
      [(("ALIAS_" ++ "GPT4" : String), ("openai:gpt-4o" : String))]
      "GPT4" "openai:gpt-4o" "GpT4" (by decide) (by decide) (by decide)
      (by decide) (by decide)⟩

end MiniPassy
